import Mathlib

/-!
# Verification of the MDSuite batched transformation engine

Shallow embedding of the batched transformation engine of MDSuite:
the transformation driver (`mdsuite/transformations/transformations.py`),
the on-disk trajectory store interface it relies on, and the flux-file
configuration generator (`mdsuite/file_io/lammps_flux_files.py`).

Machine integers are modelled as `Nat` (Python integers are unbounded;
all quantities involved are nonnegative counts and indices).
The store (`Database`), `MemoryManager` and `DataManager` classes are not
part of the analysed sources; where a definition depends on them it is
modelled from the specification and marked as such.
-/

namespace MDSuite

/-- `PropertyInfo` from `mdsuite.database.simulation_database`:
a physical observable's label and per-particle dimensionality. -/
structure PropertyInfo where
  name : String
  n_dims : Nat
deriving DecidableEq, Repr

/-- `SpeciesInfo`: one chemical species' name, particle count and
recorded properties. -/
structure SpeciesInfo where
  name : String
  n_particles : Nat
  properties : List PropertyInfo
deriving DecidableEq, Repr

/-- One on-disk dataset: shape `[n_particles, n_configurations, n_dims]`,
growable only along the configuration axis.
Modelled from the spec: the `Database` class is not among the analysed
sources; the spec fixes the dataset shape and the growth axis. -/
structure Dataset where
  n_particles : Nat
  n_configs : Nat
  n_dims : Nat
deriving DecidableEq, Repr

/-- The on-disk trajectory store: a finite map from `<species>/<property>`
paths to datasets. Modelled from the spec (§4.1 Trajectory Store). -/
def Store : Type := List (String × Dataset)

instance : DecidableEq Store := inferInstanceAs (DecidableEq (List (String × Dataset)))

/-- `join_path` from `mdsuite.utils.meta_functions`.
Modelled from the spec: a dataset path is the string `"<species>/<property>"`. -/
def join_path (a b : String) : String := a ++ "/" ++ b

/-- `Database.check_existence(path)`.
Modelled from the spec: true iff a dataset exists at that path. -/
def check_existence : Store → String → Bool
  | [], _ => false
  | e :: t, path => (e.1 == path) || check_existence t path

/-- `Database.get_data_size(path)`: the current on-disk dataset at `path`.
Modelled from the spec: returns the current shape; the driver reads the
configuration-axis length from it. -/
def get_data_size : Store → String → Option Dataset
  | [], _ => none
  | e :: t, path => if e.1 == path then some e.2 else get_data_size t path

/-- `Database.add_dataset`: creates a new dataset at the given path.
Modelled from the spec: fails (`AllocationError`) if the path already
exists. -/
def add_dataset (db : Store) (path : String) (ds : Dataset) : Option Store :=
  if check_existence db path then none else some ((path, ds) :: db)

/-- `Database.resize_dataset`: grows the configuration axis of the dataset
at `path` by `add_configs`, preserving prior contents.
Modelled from the spec: fails (`NotFoundError`) if the path is absent. -/
def resize_dataset (db : Store) (path : String) (add_configs : Nat) : Option Store :=
  if check_existence db path then
    some (db.map (fun e =>
      if e.1 == path then (e.1, { e.2 with n_configs := e.2.n_configs + add_configs }) else e))
  else none

/-- A record of one `Database.add_data` call made by the driver: which
dataset path was written, the configuration index at which the write
starts, and how many configurations the chunk holds. -/
structure WriteRecord where
  path : String
  start_idx : Nat
  chunk_size : Nat
deriving DecidableEq, Repr

/-- Configuration index `k` is touched by one of the writes in `ws`. -/
def coversIdx (ws : List WriteRecord) (k : Nat) : Prop :=
  ∃ w ∈ ws, w.start_idx ≤ k ∧ k < w.start_idx + w.chunk_size

instance (ws : List WriteRecord) (k : Nat) : Decidable (coversIdx ws k) :=
  inferInstanceAs (Decidable (∃ w ∈ ws, _ ∧ _))

/-!
## Flux-file configuration generator

`LAMMPSFluxFile.get_configurations_generator`
(`mdsuite/file_io/lammps_flux_files.py`, lines 148-178):
`n_batches, n_configs_remainder = divmod(n_configs, batch_size)`;
the file is read sequentially, yielding `n_batches` chunks of
`batch_size` configurations each, then one chunk of
`n_configs_remainder` configurations if the remainder is positive.
A chunk is modelled as the pair (index of its first configuration,
number of configurations); the first index of chunk `i` is `i * batch_size`
because reading is sequential from the start of the data block.
-/

def get_configurations_generator (n_configs batch_size : Nat) : List (Nat × Nat) :=
  let n_batches := n_configs / batch_size
  let n_configs_remainder := n_configs % batch_size
  ((List.range n_batches).map fun i => (i * batch_size, batch_size)) ++
    (if n_configs_remainder > 0 then [(n_batches * batch_size, n_configs_remainder)] else [])

/-!
## Transformation driver (`mdsuite/transformations/transformations.py`)
-/

/-- The experiment context a transformation is attached to: its species
table and the total number of configurations
(`self.experiment.species`, `self.experiment.number_of_configurations`). -/
structure Experiment where
  species : List SpeciesInfo
  number_of_configurations : Nat
deriving DecidableEq, Repr

/-- `experiment.species[name]` lookup. -/
def Experiment.findSpecies (exp : Experiment) (name : String) : Option SpeciesInfo :=
  exp.species.find? (fun sp => sp.name == name)

/-- The static name table `switcher_transformations`
(`transformations.py`, lines 51-58). -/
def switcher_transformations : List (String × String) :=
  [("Translational_Dipole_Moment", "TranslationalDipoleMoment"),
   ("Ionic_Current", "IonicCurrent"),
   ("Integrated_Heat_Current", "IntegratedHeatCurrent"),
   ("Thermal_Flux", "ThermalFlux"),
   ("Momentum_Flux", "MomentumFlux"),
   ("Kinaci_Heat_Current", "KinaciIntegratedHeatCurrent")]

/-- `Transformations._unwrap_choice` (lines 249-260): unwrap via indices
when a `Box_Images` dataset exists, via box arrays otherwise. -/
def unwrap_choice (db : Store) : String :=
  if check_existence db "Box_Images" then "UnwrapViaIndices" else "UnwrapCoordinates"

/-- The nested `_string_to_function` of `Transformations._resolve_dependencies`
(lines 223-244): `switcher = {**switcher_unwrapping, **switcher_transformations}`,
a merged lookup table where the static table's entries take precedence
(Python dict merge lets the later dict win; the key sets are disjoint),
and an unknown key raises
`KeyError("Data not in database and can not be generated.")`. -/
def string_to_function (db : Store) (argument : String) : Except String String :=
  let switcher := switcher_transformations ++ [("Unwrapped_Positions", unwrap_choice db)]
  match switcher.lookup argument with
  | some t => Except.ok t
  | none => Except.error "Data not in database and can not be generated."

/-- `Transformations._resolve_dependencies` (lines 209-247): select the
transformation for `dependency` and hand it to
`experiment.perform_transformation`. `perform` abstracts that call: it maps
the chosen transformation name and the current store to the store and write
log its run produces. If the lookup raises, `perform` is never invoked:
the store is unchanged and no write happens, and the error message is
reported. -/
def resolve_dependencies (db : Store) (dependency : String)
    (perform : String → Store → Store × List WriteRecord) :
    Store × List WriteRecord × Option String :=
  match string_to_function db dependency with
  | Except.error e => (db, [], some e)
  | Except.ok t =>
      let r := perform t db
      (r.1, r.2, none)

/-- `Transformations._run_dependency_check` (lines 190-207): check
`<species>/<dependency>` for every species of the experiment; if all exist
return without resolving, otherwise call `_resolve_dependencies` once with
the single dependency name. The result is the list of resolver invocations
(the argument of each call). -/
def run_dependency_check (db : Store) (exp : Experiment) (dependency : String) :
    List String :=
  let truth_array := exp.species.map
    (fun sp => check_existence db (join_path sp.name dependency))
  if truth_array.all (fun b => b) then [] else [dependency]

/-- `Transformations._prepare_database_entry` (lines 429-473).
`offset0` is the driver's current `self.offset` (0 from `__init__`).
Returns the updated store and the updated `self.offset`: on an existing
dataset the offset becomes the old configuration-axis length and the
dataset is resized by `number_of_configurations - old length`; otherwise a
fresh dataset of the full target shape is created and the offset is left
unchanged. `none` models an uncaught Python exception (unknown species,
`AllocationError`, `NotFoundError`). -/
def prepare_database_entry (db : Store) (exp : Experiment) (spName : String)
    (outProp : PropertyInfo) (offset0 : Nat) : Option (Store × Nat) :=
  let path := join_path spName outProp.name
  match exp.findSpecies spName with
  | none => none
  | some sp =>
    let n_particles := sp.n_particles
    let n_dims := outProp.n_dims
    if check_existence db path then
      match get_data_size db path with
      | none => none
      | some old_shape =>
        match resize_dataset db path (exp.number_of_configurations - old_shape.n_configs) with
        | none => none
        | some db2 => some (db2, old_shape.n_configs)
    else
      match add_dataset db path ⟨n_particles, exp.number_of_configurations, n_dims⟩ with
      | none => none
      | some db2 => some (db2, offset0)

/-- The `add_data` calls issued by the batch loop of
`run_transformation` (lines 515-532) for one species, with the batching
triple supplied by the memory manager.
Modelled from the spec for the `MemoryManager`/`DataManager` part (not
among the analysed sources): the loop sees `q` full batches of
`batch_size` configurations followed by one batch of `r` configurations
when `r > 0`, in increasing order. Batch `index` is saved through
`_save_output(index = index * batch_size, ...)` (line 530), which calls
`database.add_data(chunk, start_idx = index + self.offset)` (line 384);
the chunk size is the batch's actual length (line 372). -/
def batch_writes (path : String) (batch_size q r offset : Nat) : List WriteRecord :=
  ((List.range q).map fun index => ⟨path, index * batch_size + offset, batch_size⟩) ++
    (if r > 0 then [⟨path, q * batch_size + offset, r⟩] else [])

/-- The body of `run_transformation`'s species loop after the skip check
(lines 496-532): allocate or extend the output dataset
(`_prepare_database_entry`), compute the batching triple for the remaining
`number_of_configurations - offset` configurations
(`_prepare_monitors`, spec §4.2: `n_batches, remainder = divmod(total,
batch_size)`), then run the batch loop. `batch_size` is the memory
manager's batch size. Returns the updated store and the write log. -/
def transform_single_species (db : Store) (exp : Experiment) (spName : String)
    (outProp : PropertyInfo) (offset0 batch_size : Nat) :
    Option (Store × List WriteRecord) :=
  match prepare_database_entry db exp spName outProp offset0 with
  | none => none
  | some (db2, offset) =>
    let total := exp.number_of_configurations - offset
    let n_batches := total / batch_size
    let remainder := total % batch_size
    some (db2, batch_writes (join_path spName outProp.name) batch_size n_batches remainder offset)

/-- One iteration of the species loop of
`Transformations.run_transformation` (lines 484-532): if the output
dataset `<species>/<output property>` already exists, log and skip the
species — the store is untouched and no write is made (lines 487-494);
otherwise run the transformation body for this species. -/
def run_transformation_species (db : Store) (exp : Experiment) (spName : String)
    (outProp : PropertyInfo) (batch_size : Nat) :
    Option (Store × List WriteRecord) :=
  if check_existence db (join_path spName outProp.name) then
    some (db, [])
  else
    transform_single_species db exp spName outProp 0 batch_size

/-!
## `_save_output` (lines 324-392)
-/

/-- An observable event of `_save_output`'s write-back: one
`database.add_data` call (numbered by attempt) or one `time.sleep` of the
given number of milliseconds. -/
inductive SaveEvent where
  | addDataCall (attempt : Nat)
  | sleepMs (ms : Nat)
deriving DecidableEq, Repr

/-- One `database.add_data` call. The oracle `fails` tells whether attempt
number `attempt` raises `OSError` (the transient OS-level locking failure);
`Except.error ()` is the raised `OSError`. -/
def add_data_attempt (fails : Nat → Bool) (attempt : Nat) : Except Unit Unit :=
  if fails attempt then Except.error () else Except.ok ()

/-- The write-back step of `_save_output` (lines 383-392):
`try: add_data` and on `OSError` wait 0.5 seconds (`time.sleep(0.5)`) and
call `add_data` a second time; an error of the second call is not caught.
Returns the event trace and the overall outcome. -/
def save_output_write (fails : Nat → Bool) : List SaveEvent × Except Unit Unit :=
  match add_data_attempt fails 0 with
  | Except.ok _ => ([SaveEvent.addDataCall 0], Except.ok ())
  | Except.error _ =>
    match add_data_attempt fails 1 with
    | Except.ok _ =>
        ([SaveEvent.addDataCall 0, SaveEvent.sleepMs 500, SaveEvent.addDataCall 1],
         Except.ok ())
    | Except.error e =>
        ([SaveEvent.addDataCall 0, SaveEvent.sleepMs 500, SaveEvent.addDataCall 1],
         Except.error e)

/-- The shape-adjustment step of `_save_output` (lines 359-362): a rank-2
result (`len(np.shape(data)) == 2`, one value for all particles) gets a new
leading axis of size 1 (`data[np.newaxis, :, :]`); other ranks pass through. -/
def save_output_data_shape (shape : List Nat) : List Nat :=
  if shape.length = 2 then 1 :: shape else shape

/-- The chunk size used to build the `TrajectoryChunkData`
(line 372): `np.shape(data)[1]` of the shape-adjusted data. -/
def save_output_chunk_size (shape : List Nat) : Nat :=
  (save_output_data_shape shape).getD 1 0

/-!
## Batch-key rewriting (lines 520-525)

The keys of a batch dictionary are the encoded dataset paths
(`str.encode(join_path(species, prop.name))`, lines 498-503) together with
the encoded `"data_size"` scalar entry (lines 506-510; the data manager
reports each batch's actual configuration count, spec §4.3).
The loop at lines 523-525 rewrites each key by
`str(key).split("/")[-1].strip("'")`, where `key` is a Python bytes
object, so `str(key)` is its repr `b'...'`.
-/

/-- The apostrophe character, `"'"`. -/
def quoteChar : Char := Char.ofNat 39

/-- Python `str()` applied to the bytes object `b"s"`: the repr, i.e. the
characters `b`, `'`, the payload, `'` (all paths involved are printable
ASCII without quotes to escape). -/
def pyBytesStr (s : List Char) : List Char :=
  'b' :: quoteChar :: (s ++ [quoteChar])

/-- Python `str.split("/")`. -/
def splitSlash : List Char → List (List Char)
  | [] => [[]]
  | c :: cs =>
    if c = '/' then [] :: splitSlash cs
    else
      match splitSlash cs with
      | [] => [[c]]
      | p :: ps => (c :: p) :: ps

/-- Python `str.strip("'")`: remove all leading and trailing apostrophes. -/
def stripQuote (s : List Char) : List Char :=
  ((s.dropWhile (fun c => c == quoteChar)).reverse.dropWhile
    (fun c => c == quoteChar)).reverse

/-- The key rewrite of lines 523-525 applied to the payload of one bytes
key: `str(key).split("/")[-1].strip("'")`. -/
def mangle_key (key : String) : String :=
  String.mk (stripQuote ((splitSlash (pyBytesStr key.data)).getLastD []))

/-- The keys of one batch dictionary as delivered by the dataset iterator
(payloads of the encoded keys declared in `type_spec`, lines 498-510). -/
def batch_dict_keys (spName : String) (props : List PropertyInfo) : List String :=
  (props.map fun p => join_path spName p.name) ++ ["data_size"]

/-- The keys of `batch_dict_wo_species` (lines 523-525): every key of the
batch dictionary after the rewrite. -/
def batch_dict_keys_wo_species (spName : String) (props : List PropertyInfo) :
    List String :=
  (batch_dict_keys spName props).map mangle_key

/-!
## Helper lemmas
-/

/-- A dataset path exists in the store exactly when `get_data_size`
returns a shape for it. -/
theorem check_existence_eq_isSome (db : Store) (path : String) :
    check_existence db path = (get_data_size db path).isSome := by
  induction db with
  | nil => rfl
  | cons e t ih =>
    by_cases hk : e.1 = path
    · simp [check_existence, get_data_size, hk]
    · simp [check_existence, get_data_size, hk, ih]

/-- Resizing acts on the dataset stored at `path` and nothing else:
afterwards `get_data_size` reports a configuration axis grown by
`add_configs`. -/
theorem get_data_size_map_resize (db : Store) (path : String) (a : Nat) (old : Dataset)
    (h : get_data_size db path = some old) :
    get_data_size
      (db.map (fun e =>
        if e.1 == path then (e.1, { e.2 with n_configs := e.2.n_configs + a }) else e))
      path = some { old with n_configs := old.n_configs + a } := by
  induction db with
  | nil => simp [get_data_size] at h
  | cons e t ih =>
    by_cases hk : e.1 = path
    · simp only [get_data_size, hk, beq_self_eq_true, if_true, Option.some_inj] at h
      simp [get_data_size, hk, h]
    · simp only [get_data_size, hk, beq_iff_eq, if_false, if_neg, not_false_iff] at h
      simp [get_data_size, hk]
      simpa using ih h

/-- `resize_dataset` succeeds on an existing path and grows exactly the
configuration axis of the addressed dataset by the requested amount. -/
theorem resize_dataset_spec (db : Store) (path : String) (a : Nat) (old : Dataset)
    (h : get_data_size db path = some old) :
    ∃ db2, resize_dataset db path a = some db2 ∧
      get_data_size db2 path = some { old with n_configs := old.n_configs + a } := by
  have hex : check_existence db path = true := by
    rw [check_existence_eq_isSome, h]; rfl
  refine ⟨_, by simp [resize_dataset, hex], get_data_size_map_resize db path a old h⟩

/-- The indices covered by the writes of a batch loop with `q` full batches
of size `b`, a trailing remainder batch of size `r < b`, and offset
`offset`: exactly the interval `[offset, offset + (q * b + r))`. -/
theorem coversIdx_batch_writes (path : String) (b q r offset : Nat) (hrb : r < b)
    (k : Nat) :
    coversIdx (batch_writes path b q r offset) k ↔
      offset ≤ k ∧ k < offset + (q * b + r) := by
  have hb : 0 < b := lt_of_le_of_lt (Nat.zero_le r) hrb
  constructor
  · rintro ⟨w, hw, hle, hlt⟩
    unfold batch_writes at hw
    rw [List.mem_append] at hw
    rcases hw with hw | hw
    · rw [List.mem_map] at hw
      obtain ⟨i, hi, rfl⟩ := hw
      rw [List.mem_range] at hi
      dsimp at hle hlt
      have h1 : (i + 1) * b ≤ q * b := Nat.mul_le_mul_right b hi
      have h2 : (i + 1) * b = i * b + b := by ring
      omega
    · by_cases hr0 : 0 < r
      · simp [hr0] at hw
        subst hw
        dsimp at hle hlt
        omega
      · simp [show ¬ r > 0 from hr0] at hw
  · rintro ⟨h1, h2⟩
    have hk : offset + (k - offset) = k := by omega
    set m := k - offset with hm
    have hmlt : m < q * b + r := by omega
    by_cases hq : m / b < q
    · refine ⟨⟨path, m / b * b + offset, b⟩, ?_, ?_, ?_⟩
      · unfold batch_writes
        rw [List.mem_append]
        exact Or.inl (List.mem_map.mpr ⟨m / b, List.mem_range.mpr hq, rfl⟩)
      · have := Nat.div_mul_le_self m b
        dsimp
        omega
      · have h3 := Nat.div_add_mod m b
        have h4 := Nat.mod_lt m hb
        have h5 : b * (m / b) = m / b * b := Nat.mul_comm b (m / b)
        dsimp
        omega
    · have hq' : q ≤ m / b := Nat.le_of_not_lt hq
      have h3 : q * b ≤ m := (Nat.le_div_iff_mul_le hb).mp hq'
      have hr : 0 < r := by omega
      refine ⟨⟨path, q * b + offset, r⟩, ?_, ?_, ?_⟩
      · unfold batch_writes
        rw [List.mem_append]
        exact Or.inr (by simp [hr])
      · dsimp; omega
      · dsimp; omega

/-- The `i`-th write of a batch loop starts at configuration index
`i * b + offset` (index form). -/
theorem batch_writes_getElem (path : String) (b q r offset i : Nat)
    (h : i < (batch_writes path b q r offset).length) :
    (batch_writes path b q r offset)[i].start_idx = i * b + offset := by
  have hlen : ((List.range q).map
      fun index => (⟨path, index * b + offset, b⟩ : WriteRecord)).length = q := by simp
  unfold batch_writes at h ⊢
  by_cases hi : i < q
  · rw [List.getElem_append_left (by simpa using hi)]
    simp
  · by_cases hr0 : 0 < r
    · have hiq : i = q := by
        rw [List.length_append, hlen] at h
        simp [hr0] at h
        omega
      subst hiq
      rw [List.getElem_append_right (by omega)]
      simp [hr0, hlen]
    · have hr1 : r = 0 := by omega
      rw [List.length_append, hlen, hr1] at h
      simp at h
      omega

/-- The `i`-th write of a batch loop starts at configuration index
`i * b + offset`. -/
theorem batch_writes_start (path : String) (b q r offset i : Nat)
    (h : i < (batch_writes path b q r offset).length) :
    ((batch_writes path b q r offset).get ⟨i, h⟩).start_idx = i * b + offset :=
  batch_writes_getElem path b q r offset i h

/-!
## Claims
-/

/-- **C5.** For every `n_configurations ≥ 1` and batch size `b ≥ 1`, the
flux-file configuration generator yields exactly `n_configurations / b`
chunks of `b` configurations each, in strictly increasing
configuration-index order, followed by one final chunk of
`n_configurations % b` configurations exactly when that remainder is
positive; the chunk lengths sum to `n_configurations`. -/
theorem flux_generator_chunks (n_configs batch_size : Nat)
    (_hn : 1 ≤ n_configs) (hb : 1 ≤ batch_size) :
    (get_configurations_generator n_configs batch_size).map Prod.snd
      = List.replicate (n_configs / batch_size) batch_size
        ++ (if n_configs % batch_size > 0 then [n_configs % batch_size] else []) ∧
    ((get_configurations_generator n_configs batch_size).map Prod.snd).sum
      = n_configs ∧
    List.Pairwise (fun x y => x.1 < y.1)
      (get_configurations_generator n_configs batch_size) ∧
    (get_configurations_generator n_configs batch_size).length
      = n_configs / batch_size + (if n_configs % batch_size > 0 then 1 else 0) := by
  have hmap : (get_configurations_generator n_configs batch_size).map Prod.snd
      = List.replicate (n_configs / batch_size) batch_size
        ++ (if n_configs % batch_size > 0 then [n_configs % batch_size] else []) := by
    unfold get_configurations_generator
    rw [List.map_append, List.map_map]
    congr 1
    · have he : ((fun x => Prod.snd x) ∘ fun i : Nat => (i * batch_size, batch_size))
          = fun _ => batch_size := rfl
      rw [he, List.map_const']
      simp
    · by_cases hc : 0 < n_configs % batch_size <;> simp [hc]
  refine ⟨hmap, ?_, ?_, ?_⟩
  · rw [hmap, List.sum_append, List.sum_replicate, smul_eq_mul]
    have hdm : batch_size * (n_configs / batch_size) + n_configs % batch_size
        = n_configs := Nat.div_add_mod n_configs batch_size
    have hcm : n_configs / batch_size * batch_size
        = batch_size * (n_configs / batch_size) :=
      Nat.mul_comm (n_configs / batch_size) batch_size
    by_cases hc : 0 < n_configs % batch_size
    · simp only [hc, if_pos, List.sum_cons, List.sum_nil]
      omega
    · simp only [hc, if_neg, not_false_iff, List.sum_nil]
      simp
      omega
  · unfold get_configurations_generator
    rw [List.pairwise_append]
    refine ⟨?_, ?_, ?_⟩
    · rw [List.pairwise_map]
      refine List.Pairwise.imp ?_ (List.pairwise_lt_range (n_configs / batch_size))
      intro i j hij
      exact Nat.mul_lt_mul_of_pos_right hij hb
    · by_cases hc : 0 < n_configs % batch_size <;> simp [hc]
    · intro x hx y hy
      rw [List.mem_map] at hx
      obtain ⟨i, hi, rfl⟩ := hx
      rw [List.mem_range] at hi
      by_cases hc : 0 < n_configs % batch_size
      · simp only [hc, if_pos, List.mem_singleton] at hy
        subst hy
        exact Nat.mul_lt_mul_of_pos_right hi hb
      · simp [hc] at hy
  · unfold get_configurations_generator
    rw [List.length_append, List.length_map, List.length_range]
    by_cases hc : 0 < n_configs % batch_size <;> simp [hc]

/-- Witness for `flux_generator_chunks` at `n_configs = 5`,
`batch_size = 2`: two full chunks of 2 and a final chunk of 1. -/
theorem flux_generator_chunks_witness :
    (get_configurations_generator 5 2).map Prod.snd
      = List.replicate (5 / 2) 2 ++ (if 5 % 2 > 0 then [5 % 2] else []) ∧
    ((get_configurations_generator 5 2).map Prod.snd).sum = 5 ∧
    List.Pairwise (fun x y => x.1 < y.1) (get_configurations_generator 5 2) ∧
    (get_configurations_generator 5 2).length
      = 5 / 2 + (if 5 % 2 > 0 then 1 else 0) :=
  flux_generator_chunks 5 2 (by decide) (by decide)

/-- **C3.** If the first `add_data` attempt of `_save_output`'s write-back
raises the transient OS-level locking error, the code sleeps 0.5 seconds
and retries exactly once (two attempts in total, never a third); if the
retry succeeds the write completes normally, and if the retry fails the
error propagates to the caller. -/
theorem save_output_retries_once (fails : Nat → Bool) (h : fails 0 = true) :
    (save_output_write fails).1
      = [SaveEvent.addDataCall 0, SaveEvent.sleepMs 500, SaveEvent.addDataCall 1] ∧
    (save_output_write fails).2
      = (if fails 1 = true then Except.error () else Except.ok ()) := by
  cases h1 : fails 1 <;> simp [save_output_write, add_data_attempt, h, h1]

/-- Witness for `save_output_retries_once`: both attempts fail, the error
propagates after exactly two attempts and one 0.5 s sleep. -/
theorem save_output_retries_once_witness :
    (save_output_write fun _ => true).1
      = [SaveEvent.addDataCall 0, SaveEvent.sleepMs 500, SaveEvent.addDataCall 1] ∧
    (save_output_write fun _ => true).2
      = (if (fun _ : Nat => true) 1 = true then Except.error () else Except.ok ()) :=
  save_output_retries_once (fun _ => true) rfl

/-- **C9.** A rank-2 result of `transform_batch` (shape
`[batch_length, n_dims]`) gets a leading particle axis of size 1 before the
chunk is built, so the data handed to the store always has rank 3 with
shape `[n_particles-or-1, batch_length, n_dims]`; rank-3 results pass
through unchanged; in both cases the chunk is built with
`chunk_size = batch_length`. -/
theorem save_output_rank (n_particles batch_length n_dims : Nat) :
    save_output_data_shape [batch_length, n_dims] = [1, batch_length, n_dims] ∧
    save_output_data_shape [n_particles, batch_length, n_dims]
      = [n_particles, batch_length, n_dims] ∧
    (save_output_data_shape [batch_length, n_dims]).length = 3 ∧
    save_output_chunk_size [batch_length, n_dims] = batch_length ∧
    save_output_chunk_size [n_particles, batch_length, n_dims] = batch_length := by
  simp [save_output_data_shape, save_output_chunk_size]

/-- **C10.** `_run_dependency_check` returns without invoking the resolver
exactly when the dependency dataset exists for every species of the
experiment; otherwise the resolver is invoked exactly once, with the
single named dependency. -/
theorem dependency_check_single_resolution (db : Store) (exp : Experiment)
    (dep : String) :
    (run_dependency_check db exp dep = [] ↔
      ∀ sp ∈ exp.species, check_existence db (join_path sp.name dep) = true) ∧
    run_dependency_check db exp dep
      = (if ∀ sp ∈ exp.species, check_existence db (join_path sp.name dep) = true
         then [] else [dep]) ∧
    (run_dependency_check db exp dep).length ≤ 1 := by
  have hiff : ((exp.species.map
      fun sp => check_existence db (join_path sp.name dep)).all fun b => b) = true ↔
      ∀ sp ∈ exp.species, check_existence db (join_path sp.name dep) = true := by
    rw [List.all_eq_true]
    constructor
    · intro h sp hsp
      exact h _ (List.mem_map.mpr ⟨sp, hsp, rfl⟩)
    · rintro h b hb
      obtain ⟨sp, hsp, rfl⟩ := List.mem_map.mp hb
      exact h sp hsp
  unfold run_dependency_check
  by_cases hc : ((exp.species.map
      fun sp => check_existence db (join_path sp.name dep)).all fun b => b) = true
  · simp only [hc, if_true]
    refine ⟨iff_of_true (by simp) (hiff.mp hc), ?_, by simp⟩
    rw [if_pos (hiff.mp hc)]
  · simp only [hc, if_false]
    have h2 : ¬ ∀ sp ∈ exp.species,
        check_existence db (join_path sp.name dep) = true := fun h => hc (hiff.mpr h)
    refine ⟨iff_of_false (by simp) h2, ?_, by simp⟩
    rw [if_neg h2]
    simp [hc]

/-- **C6.** Resolving the dependency name `"Unwrapped_Positions"` chooses
the index-based unwrap transformation `UnwrapViaIndices` exactly when a
`Box_Images` dataset exists in the store, and the box-array-based
`UnwrapCoordinates` exactly when it does not. -/
theorem unwrap_dependency_resolution (db : Store) :
    (string_to_function db "Unwrapped_Positions" = Except.ok "UnwrapViaIndices"
      ↔ check_existence db "Box_Images" = true) ∧
    (string_to_function db "Unwrapped_Positions" = Except.ok "UnwrapCoordinates"
      ↔ check_existence db "Box_Images" = false) := by
  cases h : check_existence db "Box_Images" <;>
    simp [string_to_function, switcher_transformations, unwrap_choice, h, List.lookup]

/-- **C2.** For every species whose output dataset already exists in the
store, `run_transformation` performs zero writes for that species and
leaves the store unchanged (it logs and moves on); hence a second run of a
transformation over a species whose output already fully exists writes
nothing. -/
theorem run_transformation_skip_existing (db : Store) (exp : Experiment)
    (spName : String) (outProp : PropertyInfo) (batch_size : Nat)
    (h : check_existence db (join_path spName outProp.name) = true) :
    run_transformation_species db exp spName outProp batch_size = some (db, []) := by
  simp [run_transformation_species, h]

/-- Witness for `run_transformation_skip_existing`: a store already holding
`Na/Velocity` is untouched by a rerun for species `Na`. -/
theorem run_transformation_skip_existing_witness :
    run_transformation_species [("Na/Velocity", ⟨3, 10, 3⟩)]
      ⟨[⟨"Na", 3, []⟩], 10⟩ "Na" ⟨"Velocity", 3⟩ 4
      = some ([("Na/Velocity", ⟨3, 10, 3⟩)], []) :=
  run_transformation_skip_existing [("Na/Velocity", ⟨3, 10, 3⟩)]
    ⟨[⟨"Na", 3, []⟩], 10⟩ "Na" ⟨"Velocity", 3⟩ 4 (by decide)

/-- **C7.** For every dependency name that is neither
`"Unwrapped_Positions"` nor a key of the static transformation table,
`_resolve_dependencies` raises the lookup error
("Data not in database and can not be generated." — the failure the spec
calls `UnresolvedDependencyError`) before any transformation is performed:
the store is unchanged and no write is made. -/
theorem unknown_dependency_error (db : Store) (dep : String)
    (perform : String → Store → Store × List WriteRecord)
    (h1 : dep ≠ "Unwrapped_Positions")
    (h2 : ∀ kv ∈ switcher_transformations, dep ≠ kv.1) :
    resolve_dependencies db dep perform
      = (db, [], some "Data not in database and can not be generated.") := by
  have e1 : (dep == "Translational_Dipole_Moment") = false :=
    beq_eq_false_iff_ne.mpr
      (h2 ("Translational_Dipole_Moment", "TranslationalDipoleMoment")
        (by simp [switcher_transformations]))
  have e2 : (dep == "Ionic_Current") = false :=
    beq_eq_false_iff_ne.mpr
      (h2 ("Ionic_Current", "IonicCurrent") (by simp [switcher_transformations]))
  have e3 : (dep == "Integrated_Heat_Current") = false :=
    beq_eq_false_iff_ne.mpr
      (h2 ("Integrated_Heat_Current", "IntegratedHeatCurrent")
        (by simp [switcher_transformations]))
  have e4 : (dep == "Thermal_Flux") = false :=
    beq_eq_false_iff_ne.mpr
      (h2 ("Thermal_Flux", "ThermalFlux") (by simp [switcher_transformations]))
  have e5 : (dep == "Momentum_Flux") = false :=
    beq_eq_false_iff_ne.mpr
      (h2 ("Momentum_Flux", "MomentumFlux") (by simp [switcher_transformations]))
  have e6 : (dep == "Kinaci_Heat_Current") = false :=
    beq_eq_false_iff_ne.mpr
      (h2 ("Kinaci_Heat_Current", "KinaciIntegratedHeatCurrent")
        (by simp [switcher_transformations]))
  have e7 : (dep == "Unwrapped_Positions") = false := beq_eq_false_iff_ne.mpr h1
  simp [resolve_dependencies, string_to_function, switcher_transformations,
    List.lookup, e1, e2, e3, e4, e5, e6, e7]

/-- Witness for `unknown_dependency_error`: the name `"Banana"` is
unresolvable — the error is raised and the store sees no write. -/
theorem unknown_dependency_error_witness :
    resolve_dependencies [] "Banana" (fun _ db => (db, []))
      = ([], [], some "Data not in database and can not be generated.") :=
  unknown_dependency_error [] "Banana" (fun _ db => (db, []))
    (by decide) (by decide)

/-- **C4.** Whenever the transformation body runs for one species, the
result of batch `i` is written to the store starting at configuration
index `i * batch_size + offset`, where `offset` is the value
`_prepare_database_entry` computed once for this species before the batch
loop. -/
theorem run_transformation_write_offsets (db : Store) (exp : Experiment)
    (spName : String) (outProp : PropertyInfo) (offset0 batch_size : Nat)
    (db2 : Store) (ws : List WriteRecord)
    (hrun : transform_single_species db exp spName outProp offset0 batch_size
      = some (db2, ws))
    (i : Nat) (hi : i < ws.length) :
    ∃ offset, prepare_database_entry db exp spName outProp offset0
        = some (db2, offset) ∧
      (ws.get ⟨i, hi⟩).start_idx = i * batch_size + offset := by
  unfold transform_single_species at hrun
  cases hprep : prepare_database_entry db exp spName outProp offset0 with
  | none => rw [hprep] at hrun; exact absurd hrun (by simp)
  | some p =>
    obtain ⟨dbp, offset⟩ := p
    rw [hprep] at hrun
    simp only [Option.some_inj, Prod.mk.injEq] at hrun
    obtain ⟨hdb, hws⟩ := hrun
    subst hdb
    refine ⟨offset, rfl, ?_⟩
    subst hws
    exact batch_writes_start _ _ _ _ _ i hi

/-- Witness for `run_transformation_write_offsets`: a fresh 5-configuration
run with batch size 2; the remainder batch (index 2) starts at
configuration `2 * 2 + 0`. -/
theorem run_transformation_write_offsets_witness :
    ∃ offset, prepare_database_entry [] ⟨[⟨"Na", 2, []⟩], 5⟩ "Na" ⟨"Out", 3⟩ 0
        = some ([("Na/Out", ⟨2, 5, 3⟩)], offset) ∧
      (([⟨"Na/Out", 0, 2⟩, ⟨"Na/Out", 2, 2⟩, ⟨"Na/Out", 4, 1⟩] :
          List WriteRecord).get ⟨2, by decide⟩).start_idx = 2 * 2 + offset :=
  run_transformation_write_offsets [] ⟨[⟨"Na", 2, []⟩], 5⟩ "Na" ⟨"Out", 3⟩ 0 2
    [("Na/Out", ⟨2, 5, 3⟩)]
    [⟨"Na/Out", 0, 2⟩, ⟨"Na/Out", 2, 2⟩, ⟨"Na/Out", 4, 1⟩]
    (by decide) 2 (by decide)

/-- **C1, counterexample.** A store whose `Na/OutProp` dataset exists with
length `L = 2` in an experiment with `N = 3 > L`: rerunning
`run_transformation` does *not* resize the dataset by `N - L` and does
*not* write the indices `[L, N)` — the species is skipped at the existence
check (lines 487-494), the store is returned unchanged (length still 2,
not 3) and the write log is empty. -/
theorem run_transformation_no_extension_counterexample :
    get_data_size [("Na/OutProp", ⟨4, 2, 3⟩)] "Na/OutProp" = some ⟨4, 2, 3⟩ ∧
    (⟨[⟨"Na", 4, []⟩], 3⟩ : Experiment).number_of_configurations = 3 ∧
    run_transformation_species [("Na/OutProp", ⟨4, 2, 3⟩)] ⟨[⟨"Na", 4, []⟩], 3⟩
        "Na" ⟨"OutProp", 3⟩ 1
      = some ([("Na/OutProp", ⟨4, 2, 3⟩)], []) ∧
    ¬ coversIdx [] 2 := by
  refine ⟨by decide, rfl, by decide, by decide⟩

/-- **C1, amended.** `run_transformation` itself never extends an existing
dataset (it skips the species, see the counterexample); the claimed
extension semantics hold for the transformation body when it is invoked
for a species whose output dataset already exists with length `L` and
`N > L`: `_prepare_database_entry` sets `offset = L` and resizes the
configuration axis by exactly `N - L` (the dataset ends up with length
`N`), and the batch loop then writes exactly the configuration indices
`[L, N)`, leaving `[0, L)` untouched. -/
theorem prepare_database_entry_extension (db : Store) (exp : Experiment)
    (spName : String) (outProp : PropertyInfo) (offset0 batch_size : Nat)
    (sp : SpeciesInfo) (old : Dataset)
    (hsp : exp.findSpecies spName = some sp)
    (hex : get_data_size db (join_path spName outProp.name) = some old)
    (hLN : old.n_configs < exp.number_of_configurations)
    (hb : 1 ≤ batch_size) :
    ∃ db2 ws,
      transform_single_species db exp spName outProp offset0 batch_size
        = some (db2, ws) ∧
      prepare_database_entry db exp spName outProp offset0
        = some (db2, old.n_configs) ∧
      get_data_size db2 (join_path spName outProp.name)
        = some ⟨old.n_particles, exp.number_of_configurations, old.n_dims⟩ ∧
      (∀ k, coversIdx ws k ↔
        old.n_configs ≤ k ∧ k < exp.number_of_configurations) := by
  have hexist : check_existence db (join_path spName outProp.name) = true := by
    rw [check_existence_eq_isSome, hex]; rfl
  obtain ⟨db2, hresize, hsize⟩ := resize_dataset_spec db
    (join_path spName outProp.name)
    (exp.number_of_configurations - old.n_configs) old hex
  have hprep : prepare_database_entry db exp spName outProp offset0
      = some (db2, old.n_configs) := by
    unfold prepare_database_entry
    rw [hsp]
    simp only [hexist, if_true, hex, hresize]
  have hL : old.n_configs + (exp.number_of_configurations - old.n_configs)
      = exp.number_of_configurations := by omega
  refine ⟨db2,
    batch_writes (join_path spName outProp.name) batch_size
      ((exp.number_of_configurations - old.n_configs) / batch_size)
      ((exp.number_of_configurations - old.n_configs) % batch_size) old.n_configs,
    ?_, hprep, ?_, ?_⟩
  · unfold transform_single_species
    rw [hprep]
  · rw [hsize]
    have : ({ old with n_configs := old.n_configs +
        (exp.number_of_configurations - old.n_configs) } : Dataset)
        = ⟨old.n_particles, exp.number_of_configurations, old.n_dims⟩ := by
      rw [Dataset.mk.injEq]
      exact ⟨rfl, hL, rfl⟩
    rw [this]
  · intro k
    have hrb : (exp.number_of_configurations - old.n_configs) % batch_size
        < batch_size := Nat.mod_lt _ (by omega)
    rw [coversIdx_batch_writes _ _ _ _ _ hrb k]
    have hdm := Nat.div_add_mod (exp.number_of_configurations - old.n_configs)
      batch_size
    have hcm : (exp.number_of_configurations - old.n_configs) / batch_size
          * batch_size
        = batch_size * ((exp.number_of_configurations - old.n_configs)
          / batch_size) := Nat.mul_comm _ _
    omega

/-- Witness for `prepare_database_entry_extension`: dataset `Na/Out` exists
with length 2, target length 4, batch size 2 — the body resizes to 4 and
its writes cover exactly `[2, 4)`. -/
theorem prepare_database_entry_extension_witness :
    ∃ db2 ws,
      transform_single_species [("Na/Out", ⟨3, 2, 3⟩)] ⟨[⟨"Na", 3, []⟩], 4⟩
          "Na" ⟨"Out", 3⟩ 0 2
        = some (db2, ws) ∧
      prepare_database_entry [("Na/Out", ⟨3, 2, 3⟩)] ⟨[⟨"Na", 3, []⟩], 4⟩
          "Na" ⟨"Out", 3⟩ 0
        = some (db2, (⟨3, 2, 3⟩ : Dataset).n_configs) ∧
      get_data_size db2 (join_path "Na" (⟨"Out", 3⟩ : PropertyInfo).name)
        = some ⟨(⟨3, 2, 3⟩ : Dataset).n_particles,
            (⟨[⟨"Na", 3, []⟩], 4⟩ : Experiment).number_of_configurations,
            (⟨3, 2, 3⟩ : Dataset).n_dims⟩ ∧
      (∀ k, coversIdx ws k ↔
        (⟨3, 2, 3⟩ : Dataset).n_configs ≤ k ∧
          k < (⟨[⟨"Na", 3, []⟩], 4⟩ : Experiment).number_of_configurations) :=
  prepare_database_entry_extension [("Na/Out", ⟨3, 2, 3⟩)] ⟨[⟨"Na", 3, []⟩], 4⟩
    "Na" ⟨"Out", 3⟩ 0 2 ⟨"Na", 3, []⟩ ⟨3, 2, 3⟩
    (by decide) (by decide) (by decide) (by decide)

/-!
## Key-rewrite lemmas
-/

/-- The one-step unfolding of `splitSlash`. -/
theorem splitSlash_cons (c : Char) (cs : List Char) :
    splitSlash (c :: cs)
      = if c = '/' then [] :: splitSlash cs
        else match splitSlash cs with
          | [] => [[c]]
          | p :: ps => (c :: p) :: ps := by
  cases cs <;> rfl

/-- Splitting a list that is a slash-free prefix, a slash, and a rest. -/
theorem splitSlash_append (a rest : List Char) (h : ∀ c ∈ a, c ≠ '/') :
    splitSlash (a ++ '/' :: rest) = a :: splitSlash rest := by
  induction a with
  | nil => simp [splitSlash]
  | cons c a ih =>
    have hc : c ≠ '/' := h c (List.mem_cons_self c a)
    have ha : ∀ x ∈ a, x ≠ '/' := fun x hx => h x (List.mem_cons_of_mem c hx)
    rw [List.cons_append]
    conv_lhs => rw [splitSlash_cons]
    rw [if_neg hc, ih ha]

/-- A slash-free list does not split. -/
theorem splitSlash_no_slash (a : List Char) (h : ∀ c ∈ a, c ≠ '/') :
    splitSlash a = [a] := by
  induction a with
  | nil => rfl
  | cons c a ih =>
    have hc : c ≠ '/' := h c (List.mem_cons_self c a)
    have ha : ∀ x ∈ a, x ≠ '/' := fun x hx => h x (List.mem_cons_of_mem c hx)
    unfold splitSlash
    rw [if_neg hc, ih ha]

/-- `dropWhile` strips nothing from a list free of apostrophes. -/
theorem dropWhile_quote_of_ne (l : List Char) (h : ∀ c ∈ l, c ≠ quoteChar) :
    l.dropWhile (fun c => c == quoteChar) = l := by
  cases l with
  | nil => rfl
  | cons c cs =>
    have hc : (c == quoteChar) = false :=
      beq_eq_false_iff_ne.mpr (h c (List.mem_cons_self c cs))
    simp [List.dropWhile_cons, hc]

/-- Stripping apostrophes from an apostrophe-free payload with one
trailing apostrophe recovers the payload. -/
theorem stripQuote_append_quote (p : List Char) (h : ∀ c ∈ p, c ≠ quoteChar) :
    stripQuote (p ++ [quoteChar]) = p := by
  cases p with
  | nil => rfl
  | cons c cs =>
    have hcq : (c == quoteChar) = false :=
      beq_eq_false_iff_ne.mpr (h c (List.mem_cons_self c cs))
    have hall : ∀ x ∈ (c :: cs).reverse, x ≠ quoteChar :=
      fun x hx => h x (List.mem_reverse.mp hx)
    unfold stripQuote
    rw [List.cons_append, List.dropWhile_cons]
    rw [hcq]
    simp only [Bool.false_eq_true, if_false]
    rw [show (c :: (cs ++ [quoteChar])) = (c :: cs) ++ [quoteChar] from rfl,
      List.reverse_append,
      show ([quoteChar] : List Char).reverse = [quoteChar] from rfl,
      List.singleton_append, List.dropWhile_cons]
    simp only [beq_self_eq_true, if_true]
    rw [dropWhile_quote_of_ne _ hall, List.reverse_reverse]

/-- A species-qualified key whose species name is slash-free and whose
property name is free of slashes and apostrophes is rewritten to the bare
property name. -/
theorem mangle_key_join (spName propName : String)
    (hs : ∀ c ∈ spName.data, c ≠ '/')
    (hp : ∀ c ∈ propName.data, c ≠ '/' ∧ c ≠ quoteChar) :
    mangle_key (join_path spName propName) = propName := by
  have hdata : (spName ++ "/" ++ propName).data
      = spName.data ++ '/' :: propName.data := by
    simp [String.data_append]
  unfold mangle_key join_path pyBytesStr
  rw [hdata]
  have hsplit : 'b' :: quoteChar :: ((spName.data ++ '/' :: propName.data)
        ++ [quoteChar])
      = ('b' :: quoteChar :: spName.data) ++ '/' :: (propName.data ++ [quoteChar]) := by
    simp
  rw [hsplit]
  rw [splitSlash_append _ _ ?hA]
  case hA =>
    intro c hc
    rcases List.mem_cons.mp hc with rfl | hc
    · decide
    rcases List.mem_cons.mp hc with rfl | hc
    · decide
    exact hs c hc
  rw [splitSlash_no_slash _ ?hB]
  case hB =>
    intro c hc
    rcases List.mem_append.mp hc with hc | hc
    · exact (hp c hc).1
    · rw [List.mem_singleton] at hc
      subst hc
      decide
  show String.mk (stripQuote (propName.data ++ [quoteChar])) = propName
  rw [stripQuote_append_quote _ (fun c hc => (hp c hc).2)]

/-- **C8, counterexample.** For a batch of species `Na` with input property
`Positions`, the key set handed to `transform_batch` after the rewrite at
lines 523-525 is `["Positions", "b'data_size"]`: the per-batch size entry
`b"data_size"` (declared in the output signature, lines 506-510) is
mangled to `"b'data_size"`, which is neither a property name nor
the bare `"data_size"` — so the transform does *not* see only property
names as keys. -/
theorem batch_keys_counterexample :
    batch_dict_keys_wo_species "Na" [⟨"Positions", 3⟩]
      = ["Positions", "b\x27data_size"] ∧
    "b\x27data_size" ≠ "Positions" ∧
    "b\x27data_size" ≠ "data_size" := by
  refine ⟨?_, by decide, by decide⟩
  decide

/-- **C8, amended.** Every species-qualified dataset-path key
`<species>/<property>` of a batch dictionary (names free of `/`, and
property names free of apostrophes, which holds for every name in use) is
replaced by the bare property name `<property>` before `transform_batch`
is invoked; additionally the dictionary keeps the batch-size entry under
the mangled key `"b'data_size"`, so the transform sees the property names
plus that one non-property key. -/
theorem batch_keys_strip_species (spName : String) (props : List PropertyInfo)
    (hs : ∀ c ∈ spName.data, c ≠ '/')
    (hp : ∀ p ∈ props, ∀ c ∈ p.name.data, c ≠ '/' ∧ c ≠ quoteChar) :
    batch_dict_keys_wo_species spName props
      = (props.map fun p => p.name) ++ ["b\x27data_size"] := by
  unfold batch_dict_keys_wo_species batch_dict_keys
  rw [List.map_append]
  have h1 : (props.map fun p => join_path spName p.name).map mangle_key
      = props.map fun p => p.name := by
    rw [List.map_map]
    exact List.map_congr_left
      (fun p hmem => mangle_key_join spName p.name hs (hp p hmem))
  rw [h1]
  rfl

/-- Witness for `batch_keys_strip_species`: species `Na` with input
property `Positions`. -/
theorem batch_keys_strip_species_witness :
    batch_dict_keys_wo_species "Na" [⟨"Positions", 3⟩, ⟨"Velocities", 3⟩]
      = (([⟨"Positions", 3⟩, ⟨"Velocities", 3⟩] : List PropertyInfo).map
          fun p => p.name) ++ ["b\x27data_size"] :=
  batch_keys_strip_species "Na" [⟨"Positions", 3⟩, ⟨"Velocities", 3⟩]
    (by decide) (by decide)

end MDSuite
